import Mathlib

/-!
Shallow embedding of the tank-simulation core of `src/zbiornik.py`
(the function `simulate_tank` with its helpers `calculate_U` and
`calculate_Qd`, lines 120-148, together with the module-level constants of
lines 14-19).  Python floats are modelled as real numbers; the Python
expression `x ** 0.5` is modelled as `Real.sqrt x` (the two agree for
`0 ≤ x`; for `x < 0` the Python value leaves the reals, and the domain
theorems below analyse exactly when a negative argument reaches the
`** 0.5` operation).  The imperative loop of lines 137-146 is modelled by
explicit state passing: `TankState` holds the loop registers after a given
number of iterations, `tankStep` is one execution of the loop body, and
the output lists of `simulate_tank` collect the per-iteration values.
-/

namespace Zbiornik

noncomputable section

/-- Sampling period `T_p = 0.1` (source line 14). -/
def T_p : ℝ := 0.1

/-- Integral time constant `T_i = 0.5` (source line 15). -/
def T_i : ℝ := 0.5

/-- Lower control-signal bound `U_min = 0` (source line 16). -/
def U_min : ℝ := 0

/-- Upper control-signal bound `U_max = 10` (source line 17). -/
def U_max : ℝ := 10

/-- Upper commanded-flow bound `Qd_max = 0.05` (source line 18). -/
def Qd_max : ℝ := 0.05

/-- Lower commanded-flow bound `Qd_min = 0` (source line 19). -/
def Qd_min : ℝ := 0

/-- Python `int(x)` on a float: truncation toward zero. -/
def pyInt (x : ℝ) : ℤ := if 0 ≤ x then ⌊x⌋ else ⌈x⌉

/-- Loop registers of `simulate_tank` after some number of iterations.
Each Python list grows by exactly one element per iteration, so it suffices
to keep the most recently appended element of `t`, `h`, `u`, `Qd`, `Q_out`,
together with the full error list `e` (line 140 sums all of it) and the
running diagnostics `e_sum`, `u_sum` (lines 141-142). -/
structure TankState where
  t : ℝ
  h : ℝ
  u : ℝ
  Qd : ℝ
  Q_out : ℝ
  e : List ℝ
  e_sum : ℝ
  u_sum : ℝ

/-- Seed state, from the initial lists of source lines 121-126 and the
accumulator initialisations of lines 128-129:
`Qd = [0]`, `h = [0.0]`, `t = [0.0]`, `u = [k_p]`, `e = [h_zad - h[0]]`,
`Q_out = [beta * h[0] ** 0.5]`, `e_sum = 0`, `u_sum = 0`. -/
def tankInit (beta h_zad k_p : ℝ) : TankState :=
  { t := 0
    h := 0
    u := k_p
    Qd := 0
    Q_out := beta * Real.sqrt 0
    e := [h_zad - 0]
    e_sum := 0
    u_sum := 0 }

/-- Inner helper `calculate_U` (source lines 131-132):
`(k_p * e_i) + (k_p * T_p / T_i) * sum(e)`. -/
def calculate_U (k_p e_i : ℝ) (e : List ℝ) : ℝ :=
  k_p * e_i + k_p * T_p / T_i * e.sum

/-- Inner helper `calculate_Qd` (source lines 134-135):
`((Qd_max - Qd_min) / (U_max - U_min)) * (u - U_min) + Qd_min`. -/
def calculate_Qd (u : ℝ) : ℝ :=
  (Qd_max - Qd_min) / (U_max - U_min) * (u - U_min) + Qd_min

/-- One iteration of the loop body, source lines 138-146, executed on the
state `s` reached after the previous iterations.  Reads of `t[-1]`, `h[_]`,
`h[-1]` are `s.t`, `s.h`; the read `Qd[_]` on line 146 is the element
appended in the previous iteration (or the seed), i.e. `s.Qd`, because
line 144 has already appended the new flow value behind it. -/
def tankStep (A beta h_zad k_p : ℝ) (s : TankState) : TankState :=
  let e_i := h_zad - s.h
  let e' := s.e ++ [e_i]
  let U := min U_max (max U_min (calculate_U k_p e_i e'))
  { t := s.t + T_p
    h := (s.Qd - beta * Real.sqrt s.h) * T_p / A + s.h
    u := U
    Qd := calculate_Qd U
    Q_out := beta * Real.sqrt s.h
    e := e'
    e_sum := s.e_sum + |e_i|
    u_sum := s.u_sum + |U| }

/-- State after `n` iterations of the loop. -/
def tankIter (A beta h_zad k_p : ℝ) : ℕ → TankState
  | 0 => tankInit beta h_zad k_p
  | n + 1 => tankStep A beta h_zad k_p (tankIter A beta h_zad k_p n)

/-- Entry `i` of the Python list `t` (appended at iteration `i`; `i = 0` is
the seed). -/
def tSeq (A beta h_zad k_p : ℝ) (i : ℕ) : ℝ := (tankIter A beta h_zad k_p i).t

/-- Entry `i` of the Python list `h`. -/
def hSeq (A beta h_zad k_p : ℝ) (i : ℕ) : ℝ := (tankIter A beta h_zad k_p i).h

/-- Entry `i` of the Python list `u`. -/
def uSeq (A beta h_zad k_p : ℝ) (i : ℕ) : ℝ := (tankIter A beta h_zad k_p i).u

/-- Entry `i` of the Python list `Qd`. -/
def QdSeq (A beta h_zad k_p : ℝ) (i : ℕ) : ℝ := (tankIter A beta h_zad k_p i).Qd

/-- Entry `i` of the Python list `Q_out`. -/
def QoutSeq (A beta h_zad k_p : ℝ) (i : ℕ) : ℝ :=
  (tankIter A beta h_zad k_p i).Q_out

/-- Entry `i` of the Python list `e` (the error history): the element
appended at iteration `i`, i.e. the last element of the list after `i`
iterations. -/
def eSeq (A beta h_zad k_p : ℝ) (i : ℕ) : ℝ :=
  ((tankIter A beta h_zad k_p i).e).getLast?.getD 0

/-- Number of loop iterations: `N = int(t_sim / T_p) + 1` (source line 127);
`range(N)` runs `max N 0` times, hence the `Int.toNat`. -/
def simSteps (t_sim : ℝ) : ℕ := (pyInt (t_sim / T_p) + 1).toNat

/-- Return value of `simulate_tank` (source line 148):
`t, h, Qd, Q_out, u, e_sum, u_sum`.  The error list `e` stays internal to
the function. -/
structure SimulationRun where
  t : List ℝ
  h : List ℝ
  Qd : List ℝ
  Q_out : List ℝ
  u : List ℝ
  e_sum : ℝ
  u_sum : ℝ

/-- The simulation, source lines 120-148: after the seed entries, the loop
body runs `simSteps t_sim` times, and each list holds its seed followed by
the values appended at iterations `1, ..., simSteps t_sim`. -/
def simulate_tank (A beta t_sim h_zad k_p : ℝ) : SimulationRun :=
  { t := (List.range (simSteps t_sim + 1)).map (tSeq A beta h_zad k_p)
    h := (List.range (simSteps t_sim + 1)).map (hSeq A beta h_zad k_p)
    Qd := (List.range (simSteps t_sim + 1)).map (QdSeq A beta h_zad k_p)
    Q_out := (List.range (simSteps t_sim + 1)).map (QoutSeq A beta h_zad k_p)
    u := (List.range (simSteps t_sim + 1)).map (uSeq A beta h_zad k_p)
    e_sum := (tankIter A beta h_zad k_p (simSteps t_sim)).e_sum
    u_sum := (tankIter A beta h_zad k_p (simSteps t_sim)).u_sum }

/-! Basic unfolding lemmas for the iteration. -/

lemma tankIter_zero (A beta h_zad k_p : ℝ) :
    tankIter A beta h_zad k_p 0 = tankInit beta h_zad k_p := rfl

lemma tankIter_succ (A beta h_zad k_p : ℝ) (n : ℕ) :
    tankIter A beta h_zad k_p (n + 1) =
      tankStep A beta h_zad k_p (tankIter A beta h_zad k_p n) := rfl

lemma hSeq_zero (A beta h_zad k_p : ℝ) : hSeq A beta h_zad k_p 0 = 0 := rfl

lemma uSeq_zero (A beta h_zad k_p : ℝ) : uSeq A beta h_zad k_p 0 = k_p := rfl

lemma QdSeq_zero (A beta h_zad k_p : ℝ) : QdSeq A beta h_zad k_p 0 = 0 := rfl

lemma QoutSeq_zero (A beta h_zad k_p : ℝ) :
    QoutSeq A beta h_zad k_p 0 = beta * Real.sqrt 0 := rfl

lemma eSeq_zero (A beta h_zad k_p : ℝ) :
    eSeq A beta h_zad k_p 0 = h_zad - 0 := by
  simp [eSeq, tankIter, tankInit]

lemma eSeq_succ (A beta h_zad k_p : ℝ) (n : ℕ) :
    eSeq A beta h_zad k_p (n + 1) = h_zad - hSeq A beta h_zad k_p n := by
  simp [eSeq, hSeq, tankIter_succ, tankStep]

lemma hSeq_succ (A beta h_zad k_p : ℝ) (n : ℕ) :
    hSeq A beta h_zad k_p (n + 1) =
      (QdSeq A beta h_zad k_p n -
        beta * Real.sqrt (hSeq A beta h_zad k_p n)) * T_p / A +
        hSeq A beta h_zad k_p n := rfl

lemma QoutSeq_succ (A beta h_zad k_p : ℝ) (n : ℕ) :
    QoutSeq A beta h_zad k_p (n + 1) =
      beta * Real.sqrt (hSeq A beta h_zad k_p n) := rfl

lemma QdSeq_succ (A beta h_zad k_p : ℝ) (n : ℕ) :
    QdSeq A beta h_zad k_p (n + 1) =
      calculate_Qd (uSeq A beta h_zad k_p (n + 1)) := rfl

lemma tSeq_succ (A beta h_zad k_p : ℝ) (n : ℕ) :
    tSeq A beta h_zad k_p (n + 1) = tSeq A beta h_zad k_p n + T_p := rfl

/-- The internal error list after `n` iterations consists of the per-step
errors `eSeq 0, ..., eSeq n`. -/
lemma tankIter_e (A beta h_zad k_p : ℝ) (n : ℕ) :
    (tankIter A beta h_zad k_p n).e =
      (List.range (n + 1)).map (eSeq A beta h_zad k_p) := by
  induction n with
  | zero =>
      simp only [tankIter, tankInit, List.range_succ, List.range_zero,
        List.map_append, List.map_nil, List.map_cons, List.nil_append]
      rw [eSeq_zero]
  | succ n ih =>
      rw [tankIter_succ]
      show (tankIter A beta h_zad k_p n).e ++ [h_zad - (tankIter A beta h_zad k_p n).h] = _
      conv_rhs => rw [List.range_succ]
      rw [List.map_append, ih]
      simp [eSeq_succ, hSeq]

lemma tankIter_e_length (A beta h_zad k_p : ℝ) (n : ℕ) :
    ((tankIter A beta h_zad k_p n).e).length = n + 1 := by
  rw [tankIter_e]; simp

lemma sum_map_range (f : ℕ → ℝ) (m : ℕ) :
    ((List.range m).map f).sum = ∑ j ∈ Finset.range m, f j := by
  induction m with
  | zero => simp
  | succ m ih =>
      rw [List.range_succ, List.map_append, List.sum_append, ih,
        Finset.sum_range_succ]
      simp

/-- Summing the internal error list after `n` iterations is summing the
per-step errors `eSeq 0, ..., eSeq n`. -/
lemma tankIter_e_sum (A beta h_zad k_p : ℝ) (n : ℕ) :
    ((tankIter A beta h_zad k_p n).e).sum =
      ∑ j ∈ Finset.range (n + 1), eSeq A beta h_zad k_p j := by
  rw [tankIter_e, sum_map_range]

lemma uSeq_succ (A beta h_zad k_p : ℝ) (n : ℕ) :
    uSeq A beta h_zad k_p (n + 1) =
      min U_max (max U_min (calculate_U k_p (eSeq A beta h_zad k_p (n + 1))
        ((tankIter A beta h_zad k_p (n + 1)).e))) := by
  rw [eSeq_succ]
  simp [uSeq, hSeq, tankIter_succ, tankStep]

/-- The computed control value of step `n + 1`, with the integral term
written as the sum of all errors up to and including the current one. -/
lemma uSeq_succ_sum (A beta h_zad k_p : ℝ) (n : ℕ) :
    uSeq A beta h_zad k_p (n + 1) =
      min U_max (max U_min (k_p * eSeq A beta h_zad k_p (n + 1) +
        k_p * T_p / T_i * ∑ j ∈ Finset.range (n + 2), eSeq A beta h_zad k_p j)) := by
  rw [uSeq_succ, calculate_U, tankIter_e_sum]

lemma uSeq_succ_nonneg (A beta h_zad k_p : ℝ) (n : ℕ) :
    U_min ≤ uSeq A beta h_zad k_p (n + 1) := by
  rw [uSeq_succ]
  exact le_min (by norm_num [U_min, U_max]) (le_max_left _ _)

lemma uSeq_succ_le (A beta h_zad k_p : ℝ) (n : ℕ) :
    uSeq A beta h_zad k_p (n + 1) ≤ U_max := by
  rw [uSeq_succ]
  exact min_le_left _ _

lemma QdSeq_succ_nonneg (A beta h_zad k_p : ℝ) (n : ℕ) :
    0 ≤ QdSeq A beta h_zad k_p (n + 1) := by
  have h1 := uSeq_succ_nonneg A beta h_zad k_p n
  rw [QdSeq_succ, calculate_Qd]
  rw [U_min] at h1
  norm_num [Qd_max, Qd_min, U_max, U_min]
  linarith

lemma QdSeq_nonneg (A beta h_zad k_p : ℝ) (n : ℕ) :
    0 ≤ QdSeq A beta h_zad k_p n := by
  cases n with
  | zero => rw [QdSeq_zero]
  | succ n => exact QdSeq_succ_nonneg A beta h_zad k_p n

/-- The running diagnostic `e_sum` after `n` iterations is the sum of the
absolute per-step errors of iterations `1, ..., n`. -/
lemma tankIter_e_sum_diag (A beta h_zad k_p : ℝ) (n : ℕ) :
    (tankIter A beta h_zad k_p n).e_sum =
      ∑ i ∈ Finset.range n, |eSeq A beta h_zad k_p (i + 1)| := by
  induction n with
  | zero => simp [tankIter, tankInit]
  | succ n ih =>
      rw [tankIter_succ]
      show (tankIter A beta h_zad k_p n).e_sum +
        |h_zad - (tankIter A beta h_zad k_p n).h| = _
      rw [ih, Finset.sum_range_succ, eSeq_succ]
      rfl

/-- The running diagnostic `u_sum` after `n` iterations is the sum of the
absolute control values of iterations `1, ..., n`. -/
lemma tankIter_u_sum_diag (A beta h_zad k_p : ℝ) (n : ℕ) :
    (tankIter A beta h_zad k_p n).u_sum =
      ∑ i ∈ Finset.range n, |uSeq A beta h_zad k_p (i + 1)| := by
  induction n with
  | zero => simp [tankIter, tankInit]
  | succ n ih =>
      rw [tankIter_succ]
      show (tankIter A beta h_zad k_p n).u_sum +
        |uSeq A beta h_zad k_p (n + 1)| = _
      rw [ih, Finset.sum_range_succ]

/-- For a positive duration, Python's `int` truncation is the floor, the
floor is non-negative, and the iteration count is `⌊t_sim / T_p⌋ + 1`. -/
lemma simSteps_of_pos (t_sim : ℝ) (ht : 0 < t_sim) :
    (simSteps t_sim : ℤ) = ⌊t_sim / T_p⌋ + 1 := by
  have h1 : 0 ≤ t_sim / T_p := by
    apply div_nonneg (le_of_lt ht)
    norm_num [T_p]
  have h2 : 0 ≤ ⌊t_sim / T_p⌋ := Int.floor_nonneg.mpr h1
  rw [simSteps, pyInt, if_pos h1, Int.toNat_of_nonneg (by omega)]

lemma simulate_tank_lengths (A beta t_sim h_zad k_p : ℝ) :
    (simulate_tank A beta t_sim h_zad k_p).t.length = simSteps t_sim + 1 ∧
    (simulate_tank A beta t_sim h_zad k_p).h.length = simSteps t_sim + 1 ∧
    (simulate_tank A beta t_sim h_zad k_p).Qd.length = simSteps t_sim + 1 ∧
    (simulate_tank A beta t_sim h_zad k_p).Q_out.length = simSteps t_sim + 1 ∧
    (simulate_tank A beta t_sim h_zad k_p).u.length = simSteps t_sim + 1 := by
  simp [simulate_tank]

/-- Entry `i` of the returned `h` list is the height after `i` iterations. -/
lemma simulate_tank_h_getElem (A beta t_sim h_zad k_p : ℝ) (i : ℕ)
    (hi : i < simSteps t_sim + 1) :
    (simulate_tank A beta t_sim h_zad k_p).h[i]? =
      some (hSeq A beta h_zad k_p i) := by
  show ((List.range (simSteps t_sim + 1)).map (hSeq A beta h_zad k_p))[i]? = _
  rw [List.getElem?_map, List.getElem?_range hi]
  rfl

/-- Entry `i` of the returned `u` list is the control value of iteration
`i`. -/
lemma simulate_tank_u_getElem (A beta t_sim h_zad k_p : ℝ) (i : ℕ)
    (hi : i < simSteps t_sim + 1) :
    (simulate_tank A beta t_sim h_zad k_p).u[i]? =
      some (uSeq A beta h_zad k_p i) := by
  show ((List.range (simSteps t_sim + 1)).map (uSeq A beta h_zad k_p))[i]? = _
  rw [List.getElem?_map, List.getElem?_range hi]
  rfl

/-- With zero gain, every control value the loop computes is zero: the raw
PI output `0 * e_i + 0 * T_p / T_i * sum(e)` vanishes and the clamp maps it
to `0`. -/
lemma uSeq_of_zero_gain (A beta h_zad : ℝ) (i : ℕ) :
    uSeq A beta h_zad 0 i = 0 := by
  cases i with
  | zero => exact uSeq_zero A beta h_zad 0
  | succ n =>
      rw [uSeq_succ, calculate_U]
      norm_num [U_max, U_min]

/-- With a non-negative gain, a non-positive setpoint and all previous
heights zero, the control value of the next step is clamped to zero. -/
lemma uSeq_succ_zero_of_nonpos (A beta h_zad k_p : ℝ) (hk : 0 ≤ k_p)
    (hz : h_zad ≤ 0) (n : ℕ)
    (hh : ∀ j, j ≤ n → hSeq A beta h_zad k_p j = 0) :
    uSeq A beta h_zad k_p (n + 1) = 0 := by
  rw [uSeq_succ_sum]
  have hcur : eSeq A beta h_zad k_p (n + 1) ≤ 0 := by
    rw [eSeq_succ, hh n (le_refl n)]
    linarith
  have he : ∀ j ∈ Finset.range (n + 2), eSeq A beta h_zad k_p j ≤ 0 := by
    intro j hj
    match j with
    | 0 =>
        rw [eSeq_zero]
        linarith
    | m + 1 =>
        have hm : m ≤ n := by
          have := Finset.mem_range.mp hj
          omega
        rw [eSeq_succ, hh m hm]
        linarith
  have hsum : ∑ j ∈ Finset.range (n + 2), eSeq A beta h_zad k_p j ≤ 0 :=
    Finset.sum_nonpos he
  have hc : 0 ≤ k_p * T_p / T_i := by
    apply div_nonneg (mul_nonneg hk (by norm_num [T_p]))
    norm_num [T_i]
  have hraw : k_p * eSeq A beta h_zad k_p (n + 1) +
      k_p * T_p / T_i * ∑ j ∈ Finset.range (n + 2), eSeq A beta h_zad k_p j ≤ 0 := by
    nlinarith [mul_nonneg hk (neg_nonneg.mpr hcur),
      mul_nonneg hc (neg_nonneg.mpr hsum)]
  have h1 : max U_min (k_p * eSeq A beta h_zad k_p (n + 1) +
      k_p * T_p / T_i * ∑ j ∈ Finset.range (n + 2), eSeq A beta h_zad k_p j) = U_min :=
    max_eq_left (by rw [U_min]; linarith)
  rw [h1, min_eq_right (by norm_num [U_min, U_max]), U_min]

/-- With a non-negative gain and a non-positive setpoint, every height and
every commanded flow is zero. -/
lemma zero_run_of_nonpos_setpoint (A beta h_zad k_p : ℝ) (hk : 0 ≤ k_p)
    (hz : h_zad ≤ 0) :
    ∀ i, hSeq A beta h_zad k_p i = 0 ∧ QdSeq A beta h_zad k_p i = 0 := by
  intro i
  induction i using Nat.strong_induction_on with
  | _ i ih =>
    match i with
    | 0 => exact ⟨hSeq_zero A beta h_zad k_p, QdSeq_zero A beta h_zad k_p⟩
    | n + 1 =>
        have hh : ∀ j, j ≤ n → hSeq A beta h_zad k_p j = 0 := fun j hj =>
          (ih j (by omega)).1
        have hu := uSeq_succ_zero_of_nonpos A beta h_zad k_p hk hz n hh
        have hqd1 : QdSeq A beta h_zad k_p (n + 1) = 0 := by
          rw [QdSeq_succ, hu, calculate_Qd]
          norm_num [Qd_max, Qd_min, U_max, U_min]
        have hh1 : hSeq A beta h_zad k_p (n + 1) = 0 := by
          rw [hSeq_succ, (ih n (by omega)).2, hh n (le_refl n)]
          simp
        exact ⟨hh1, hqd1⟩

/-! Claim theorems. -/

/-- C1 (counterexample): at the valid parameters `A = 1`, `beta = 0`,
`t_sim = 1`, `h_zad = 1`, `k_p = 1` the common sequence length is `12`,
which is `⌊t_sim / T_p⌋ + 2`, not the claimed `⌊t_sim / T_p⌋ + 3 = 13`. -/
theorem run_length_not_floor_add_three :
    ¬ (((simulate_tank 1 0 1 1 1).t.length : ℤ) = ⌊(1 : ℝ) / T_p⌋ + 3) := by
  intro h
  rw [(simulate_tank_lengths 1 0 1 1 1).1] at h
  have hS := simSteps_of_pos 1 (by norm_num)
  have h10 : (⌊(1 : ℝ) / T_p⌋ : ℤ) = 10 := by norm_num [T_p]
  push_cast at h
  omega

/-- C1 (corrected): for every valid parameter set the six sequences
`t, h, Qd, Q_out, u` (returned) and `e` (internal error history) all have
the same length, and that common length is `⌊t_sim / T_p⌋ + 2` — the seed
entry plus `N = ⌊t_sim / T_p⌋ + 1` loop iterations — not `⌊t_sim / T_p⌋ + 3`
as claimed. -/
theorem run_lengths_agree_floor_add_two (A beta t_sim h_zad k_p : ℝ)
    (_hA : 0 < A) (_hbeta : 0 ≤ beta) (ht : 0 < t_sim) (_hk : 0 < k_p) :
    (simulate_tank A beta t_sim h_zad k_p).t.length =
      (simulate_tank A beta t_sim h_zad k_p).h.length ∧
    (simulate_tank A beta t_sim h_zad k_p).h.length =
      (simulate_tank A beta t_sim h_zad k_p).Qd.length ∧
    (simulate_tank A beta t_sim h_zad k_p).Qd.length =
      (simulate_tank A beta t_sim h_zad k_p).Q_out.length ∧
    (simulate_tank A beta t_sim h_zad k_p).Q_out.length =
      (simulate_tank A beta t_sim h_zad k_p).u.length ∧
    (simulate_tank A beta t_sim h_zad k_p).u.length =
      ((tankIter A beta h_zad k_p (simSteps t_sim)).e).length ∧
    ((simulate_tank A beta t_sim h_zad k_p).t.length : ℤ) = ⌊t_sim / T_p⌋ + 2 := by
  obtain ⟨l1, l2, l3, l4, l5⟩ := simulate_tank_lengths A beta t_sim h_zad k_p
  have le' := tankIter_e_length A beta h_zad k_p (simSteps t_sim)
  have hS := simSteps_of_pos t_sim ht
  refine ⟨by omega, by omega, by omega, by omega, by omega, ?_⟩
  rw [l1]
  push_cast
  omega

/-- C1 (witness): the corrected length invariant at
`A = 1, beta = 0, t_sim = 1, h_zad = 1, k_p = 1`. -/
theorem run_lengths_agree_floor_add_two_witness :
    (simulate_tank 1 0 1 1 1).t.length = (simulate_tank 1 0 1 1 1).h.length ∧
    (simulate_tank 1 0 1 1 1).h.length = (simulate_tank 1 0 1 1 1).Qd.length ∧
    (simulate_tank 1 0 1 1 1).Qd.length =
      (simulate_tank 1 0 1 1 1).Q_out.length ∧
    (simulate_tank 1 0 1 1 1).Q_out.length =
      (simulate_tank 1 0 1 1 1).u.length ∧
    (simulate_tank 1 0 1 1 1).u.length =
      ((tankIter 1 0 1 1 (simSteps 1)).e).length ∧
    ((simulate_tank 1 0 1 1 1).t.length : ℤ) = ⌊(1 : ℝ) / T_p⌋ + 2 :=
  run_lengths_agree_floor_add_two 1 0 1 1 1 (by norm_num) (by norm_num)
    (by norm_num) (by norm_num)

/-- C2 (counterexample): `simulate_tank` called with `controllerGain = 0`
(and otherwise valid parameters `A = 1, beta = 0, t_sim = 1, h_zad = 1`)
does not fail: it returns a complete `SimulationRun` whose sequences have
the full length `12`.  The source performs no parameter validation and has
no `InvalidParameter` error path at all. -/
theorem zero_gain_returns_complete_run :
    (simulate_tank 1 0 1 1 0).t.length = 12 := by
  rw [(simulate_tank_lengths 1 0 1 1 0).1]
  have hS := simSteps_of_pos 1 (by norm_num)
  have h10 : (⌊(1 : ℝ) / T_p⌋ : ℤ) = 10 := by norm_num [T_p]
  omega

/-- C2 (corrected): `simulate_tank` performs no parameter validation: it
has no `InvalidParameter` error path, so a call with `controllerGain = 0`
and otherwise valid parameters (`crossSection > 0`,
`outflowCoefficient ≥ 0`, `simulationDuration > 0`) is not rejected — it
produces a complete, full-length `SimulationRun`, in which every control
entry (the seed `u[0] = k_p = 0` included) is `0`. -/
theorem no_parameter_validation_zero_gain (A beta t_sim h_zad : ℝ)
    (_hA : 0 < A) (_hbeta : 0 ≤ beta) (ht : 0 < t_sim) :
    (simulate_tank A beta t_sim h_zad 0).u =
      List.replicate (simSteps t_sim + 1) 0 ∧
    ((simSteps t_sim + 1 : ℕ) : ℤ) = ⌊t_sim / T_p⌋ + 2 := by
  constructor
  · rw [List.eq_replicate_iff]
    refine ⟨(simulate_tank_lengths A beta t_sim h_zad 0).2.2.2.2, ?_⟩
    intro b hb
    rw [show (simulate_tank A beta t_sim h_zad 0).u =
      (List.range (simSteps t_sim + 1)).map (uSeq A beta h_zad 0) from rfl] at hb
    obtain ⟨i, _, hi⟩ := List.mem_map.mp hb
    rw [← hi, uSeq_of_zero_gain]
  · have hS := simSteps_of_pos t_sim ht
    push_cast
    omega

/-- C2 (witness): the corrected statement at
`A = 1, beta = 0, t_sim = 1, h_zad = 1`. -/
theorem no_parameter_validation_zero_gain_witness :
    (simulate_tank 1 0 1 1 0).u = List.replicate (simSteps 1 + 1) 0 ∧
    ((simSteps 1 + 1 : ℕ) : ℤ) = ⌊(1 : ℝ) / T_p⌋ + 2 :=
  no_parameter_validation_zero_gain 1 0 1 1 (by norm_num) (by norm_num)
    (by norm_num)

/-- C3 (counterexample): at the valid parameters `A = 1`, `beta = 100`,
`t_sim = 1`, `h_zad = 1`, `k_p = 1`, the height after three iterations is
negative (`h[3] = 0.0015 - 10 * √0.0007 < 0`), and the run performs
`simSteps 1 = 11 > 3` iterations (here the real-arithmetic count agrees
with the program: Python computes `1/0.1 == 10.0`, so `N = 11`), so
iteration `4` evaluates `h[3] ** 0.5` on this negative value: not every
value raised to the power `0.5` is non-negative. -/
theorem height_negative_before_sqrt :
    hSeq 1 100 1 1 3 < 0 ∧ 3 < simSteps 1 := by
  constructor
  · have hh1 : hSeq 1 100 1 1 1 = 0 := by
      rw [hSeq_succ]
      simp [QdSeq_zero, hSeq_zero]
    have hu1 : uSeq 1 100 1 1 1 = 1.4 := by
      rw [uSeq_succ_sum, Finset.sum_range_succ, Finset.sum_range_succ,
        Finset.sum_range_zero, eSeq_succ, eSeq_zero, hSeq_zero]
      norm_num [U_max, U_min, T_p, T_i]
    have hqd1 : QdSeq 1 100 1 1 1 = 0.007 := by
      rw [QdSeq_succ, hu1]
      norm_num [calculate_Qd, Qd_max, Qd_min, U_max, U_min]
    have hh2 : hSeq 1 100 1 1 2 = 0.0007 := by
      rw [hSeq_succ, hqd1, hh1]
      simp
      norm_num [T_p]
    have hqd2 : QdSeq 1 100 1 1 2 = 0.008 := by
      have hu2 : uSeq 1 100 1 1 2 = 1.6 := by
        rw [uSeq_succ_sum, Finset.sum_range_succ, Finset.sum_range_succ,
          Finset.sum_range_succ, Finset.sum_range_zero]
        simp only [eSeq_succ, eSeq_zero]
        rw [hh1, hSeq_zero]
        norm_num [U_max, U_min, T_p, T_i]
      rw [QdSeq_succ, hu2]
      norm_num [calculate_Qd, Qd_max, Qd_min, U_max, U_min]
    have hs : (0.0002 : ℝ) < Real.sqrt 0.0007 := by
      rw [Real.lt_sqrt (by norm_num)]
      norm_num
    rw [hSeq_succ, hqd2, hh2, T_p]
    nlinarith [hs]
  · have hS := simSteps_of_pos 1 (by norm_num)
    have h10 : (⌊(1 : ℝ) / T_p⌋ : ℤ) = 10 := by norm_num [T_p]
    omega

/-- C3 (corrected): the only division in the loop body is by
`crossSection` (and by the non-zero constants), but the arguments of the
power `0.5` — the previous heights — are not non-negative in general:
once a height goes negative, the `** 0.5` value leaves the reals, and the
run is no longer the claimed all-real computation.  The `0.5`-power
arguments are non-negative when `outflowCoefficient = 0`: then each step
adds the non-negative quantity `Qd[i-1] * T_p / A` to the height. -/
theorem height_nonneg_of_zero_outflow (A h_zad k_p : ℝ) (hA : 0 < A)
    (i : ℕ) : 0 ≤ hSeq A 0 h_zad k_p i := by
  induction i with
  | zero => norm_num [hSeq_zero]
  | succ n ih =>
      rw [hSeq_succ]
      have hq := QdSeq_nonneg A 0 h_zad k_p n
      have hterm : 0 ≤ (QdSeq A 0 h_zad k_p n -
          0 * Real.sqrt (hSeq A 0 h_zad k_p n)) * T_p / A := by
        apply div_nonneg _ (le_of_lt hA)
        apply mul_nonneg _ (by norm_num [T_p])
        simpa using hq
      linarith

/-- C3 (witness): non-negativity of the fifth height at
`A = 1, beta = 0, h_zad = 1, k_p = 1`. -/
theorem height_nonneg_of_zero_outflow_witness : 0 ≤ hSeq 1 0 1 1 5 :=
  height_nonneg_of_zero_outflow 1 1 1 (by norm_num) 5

/-- C4 (confirmed): every computed height satisfies the explicit Euler
update `h[i+1] = h[i] + (Qd[i] - beta * √(h[i])) * T_p / A`, using the
previous step's commanded flow `Qd[i]` and the outflow evaluated at the
previous height `h[i]`. -/
theorem height_euler_update (A beta h_zad k_p : ℝ) (i : ℕ) :
    hSeq A beta h_zad k_p (i + 1) =
      hSeq A beta h_zad k_p i +
        (QdSeq A beta h_zad k_p i -
          beta * Real.sqrt (hSeq A beta h_zad k_p i)) * T_p / A := by
  rw [hSeq_succ]
  ring

/-- C5 (confirmed): every computed error is `e[i+1] = h_zad - h[i]`, and the
computed control value is the clamped PI law whose integral term sums the
whole error history up to and including the current error. -/
theorem error_and_control_law (A beta h_zad k_p : ℝ) (i : ℕ) :
    eSeq A beta h_zad k_p (i + 1) = h_zad - hSeq A beta h_zad k_p i ∧
    uSeq A beta h_zad k_p (i + 1) =
      min U_max (max U_min (k_p * eSeq A beta h_zad k_p (i + 1) +
        k_p * (T_p / T_i) *
          ∑ j ∈ Finset.range (i + 2), eSeq A beta h_zad k_p j)) := by
  refine ⟨eSeq_succ A beta h_zad k_p i, ?_⟩
  rw [uSeq_succ_sum, mul_div_assoc]

/-- C6 (counterexample): at the valid parameters
`A = 1, beta = 0, t_sim = 1, h_zad = 1, k_p = 20` (the preconditions only
require `controllerGain > 0`), the seed entry of the returned control list
is `u[0] = k_p = 20`, which exceeds `U_max = 10`. -/
theorem seed_control_exceeds_bound :
    (simulate_tank 1 0 1 1 20).u[0]? = some 20 ∧ ¬ ((20 : ℝ) ≤ U_max) := by
  constructor
  · rw [simulate_tank_u_getElem 1 0 1 1 20 0 (by omega), uSeq_zero]
  · norm_num [U_max]

/-- C6 (corrected): the computed control entries `u[i]`, `i ≥ 1`, always lie
in `[U_min, U_max] = [0, 10]`, but the seed entry is `u[0] = k_p`, which
satisfies the bound only when `k_p ≤ U_max`; a valid gain above `10` puts
the seed outside the band. -/
theorem control_saturation_bounds (A beta t_sim h_zad k_p : ℝ)
    (_hA : 0 < A) (_hbeta : 0 ≤ beta) (_ht : 0 < t_sim) (_hk : 0 < k_p) :
    uSeq A beta h_zad k_p 0 = k_p ∧
    ∀ i : ℕ, U_min ≤ uSeq A beta h_zad k_p (i + 1) ∧
      uSeq A beta h_zad k_p (i + 1) ≤ U_max :=
  ⟨uSeq_zero A beta h_zad k_p, fun i =>
    ⟨uSeq_succ_nonneg A beta h_zad k_p i, uSeq_succ_le A beta h_zad k_p i⟩⟩

/-- C6 (witness): the corrected saturation bounds at
`A = 1, beta = 0, t_sim = 1, h_zad = 1, k_p = 1`, step `4`. -/
theorem control_saturation_bounds_witness :
    uSeq 1 0 1 1 0 = 1 ∧
    (U_min ≤ uSeq 1 0 1 1 4 ∧ uSeq 1 0 1 1 4 ≤ U_max) :=
  ⟨(control_saturation_bounds 1 0 1 1 1 (by norm_num) (by norm_num)
      (by norm_num) (by norm_num)).1,
    (control_saturation_bounds 1 0 1 1 1 (by norm_num) (by norm_num)
      (by norm_num) (by norm_num)).2 3⟩

/-- C7 (confirmed): every commanded-flow entry, the seed `Qd[0] = 0`
included, lies in `[Qd_min, Qd_max] = [0, 0.05]`. -/
theorem commanded_flow_bounds (A beta h_zad k_p : ℝ) (i : ℕ) :
    Qd_min ≤ QdSeq A beta h_zad k_p i ∧ QdSeq A beta h_zad k_p i ≤ Qd_max := by
  cases i with
  | zero => norm_num [QdSeq_zero, Qd_min, Qd_max]
  | succ n =>
      have h1 := uSeq_succ_nonneg A beta h_zad k_p n
      have h2 := uSeq_succ_le A beta h_zad k_p n
      rw [U_min] at h1
      rw [U_max] at h2
      rw [QdSeq_succ, calculate_Qd]
      norm_num [Qd_max, Qd_min, U_max, U_min]
      constructor <;> linarith

/-- C8 (confirmed): the scalar diagnostics returned by `simulate_tank` are
the sums of the absolute errors and of the absolute control values of the
computed steps `1, ..., N`, excluding the seed entries. -/
theorem cumulative_diagnostics (A beta t_sim h_zad k_p : ℝ) :
    (simulate_tank A beta t_sim h_zad k_p).e_sum =
      ∑ i ∈ Finset.range (simSteps t_sim), |eSeq A beta h_zad k_p (i + 1)| ∧
    (simulate_tank A beta t_sim h_zad k_p).u_sum =
      ∑ i ∈ Finset.range (simSteps t_sim), |uSeq A beta h_zad k_p (i + 1)| :=
  ⟨tankIter_e_sum_diag A beta h_zad k_p (simSteps t_sim),
    tankIter_u_sum_diag A beta h_zad k_p (simSteps t_sim)⟩

/-- C10 (confirmed): with a non-positive setpoint and valid parameters,
every height is `0`, and every computed control value, commanded flow and
natural outflow (indices `i ≥ 1`) is `0`: the raw PI output is non-positive
and the clamp pins it at `U_min = 0`. -/
theorem nonpositive_setpoint_run_stays_zero (A beta h_zad k_p : ℝ)
    (_hA : 0 < A) (_hbeta : 0 ≤ beta) (hk : 0 < k_p) (hz : h_zad ≤ 0)
    (i : ℕ) :
    hSeq A beta h_zad k_p i = 0 ∧
    uSeq A beta h_zad k_p (i + 1) = 0 ∧
    QdSeq A beta h_zad k_p (i + 1) = 0 ∧
    QoutSeq A beta h_zad k_p (i + 1) = 0 := by
  have main := zero_run_of_nonpos_setpoint A beta h_zad k_p (le_of_lt hk) hz
  refine ⟨(main i).1, ?_, (main (i + 1)).2, ?_⟩
  · exact uSeq_succ_zero_of_nonpos A beta h_zad k_p (le_of_lt hk) hz i
      (fun j _ => (main j).1)
  · rw [QoutSeq_succ, (main i).1]
    simp

/-- C10 (witness): the all-zero run at
`A = 1, beta = 1, h_zad = -1, k_p = 1`, index `2`. -/
theorem nonpositive_setpoint_run_stays_zero_witness :
    hSeq 1 1 (-1) 1 2 = 0 ∧ uSeq 1 1 (-1) 1 3 = 0 ∧
    QdSeq 1 1 (-1) 1 3 = 0 ∧ QoutSeq 1 1 (-1) 1 3 = 0 :=
  nonpositive_setpoint_run_stays_zero 1 1 (-1) 1 (by norm_num) (by norm_num)
    (by norm_num) (by norm_num) 2

end

end Zbiornik
